import Mathlib

/-!
Embedding shim (`src/embed.c`).

A shallow embedding of the C program `embed.c`: the native function
`ahk_callcmd`, the method table `AHKMethods`, the module definition
`AHKModule`, the module initialiser `PyInit_ahk` and `main`.

The program calls into the C library and the CPython runtime.  The routines it
uses (`PyArg_ParseTuple`, `printf`, `PyModule_Create`, `PyImport_AppendInittab`,
`Py_Initialize`, `PyRun_SimpleString`, `Py_Finalize`) are not part of the
repository; they are modelled here after their documentation, as far as the
program exercises them.  What a run depends on besides the program is collected
in `Env`: whether the built-in module table can be extended, whether the
interpreter can start, and which modules the import system finds outside the
built-in module table.

Conventions:
* a Python `str` is its list of code points (`Nat`);
* a C string (`const char *`) is the list of bytes of its buffer, the
  terminating NUL being implicit; standard output is a list of bytes;
* a `PyObject *` result is `Except PyErr PyObject`: `Except.error e` stands for
  the `NULL` return with exception `e` set.
-/

namespace Embed

/-! ## Python values -/

/-- Exception kinds raised on the paths the program can reach. -/
inductive PyErr
  | TypeError
  | ValueError
  | UnicodeEncodeError
  | SystemError
  | ModuleNotFoundError
  | NameError
  | AttributeError
  deriving DecidableEq, Repr

/-- Python objects that can be passed to a native function. `str` carries the
code points of the string, `bytes` its octets, `module` the name of a module
object (the `self` argument of a module-level function). -/
inductive PyObject
  | None
  | bool (b : Bool)
  | int (n : Int)
  | str (codePoints : List Nat)
  | bytes (data : List Nat)
  | tuple (items : List PyObject)
  | list (items : List PyObject)
  | module (name : String)

/-! ## Runtime routines used by `ahk_callcmd` -/

/-- UTF-8 encoding of one code point, as done by the runtime when a `str` is
converted to a C string. Surrogate code points (U+D800..U+DFFF) and values
above U+10FFFF have no encoding. -/
def utf8EncodeCodePoint (c : Nat) : Option (List Nat) :=
  if c < 0x80 then some [c]
  else if c < 0x800 then some [0xC0 + c / 64, 0x80 + c % 64]
  else if 0xD800 ≤ c ∧ c ≤ 0xDFFF then none
  else if c < 0x10000 then
    some [0xE0 + c / 4096, 0x80 + c / 64 % 64, 0x80 + c % 64]
  else if c < 0x110000 then
    some [0xF0 + c / 262144, 0x80 + c / 4096 % 64, 0x80 + c / 64 % 64, 0x80 + c % 64]
  else none

/-- UTF-8 encoding of a string (`PyUnicode_AsUTF8AndSize`): the concatenated
encodings of its code points, or `none` when one of them cannot be encoded. -/
def utf8Encode : List Nat → Option (List Nat)
  | [] => some []
  | c :: cs =>
    match utf8EncodeCodePoint c, utf8Encode cs with
    | some b, some bs => some (b ++ bs)
    | _, _ => none

/-- C `strlen`: the number of bytes before the first NUL byte. -/
def strlen (buf : List Nat) : Nat :=
  (buf.takeWhile (fun b => b != 0)).length

/-- Conversion of one argument by the format unit `s` of `PyArg_ParseTuple`:
the argument must be a `str`; it is encoded as UTF-8 (`UnicodeEncodeError` when
that fails) and rejected with `ValueError` ("embedded null character") when the
encoded buffer is longer than its C-string length. Any other object, `None`
and `bytes` included, is a `TypeError`. -/
def convert_s (arg : PyObject) : Except PyErr (List Nat) :=
  match arg with
  | PyObject.str s =>
    match utf8Encode s with
    | none => Except.error PyErr.UnicodeEncodeError
    | some sarg =>
      if strlen sarg != sarg.length then Except.error PyErr.ValueError
      else Except.ok sarg
  | _ => Except.error PyErr.TypeError

/-- The call `PyArg_ParseTuple(args, "s:callcmd", &cmd)`: `args` must be a tuple
(`SystemError` otherwise) of exactly one item (`TypeError` otherwise), which is
converted by `convert_s`. `Except.ok cmd` is the non-zero (success) return with
`cmd` stored through the pointer; `Except.error _` is the zero return. -/
def PyArg_ParseTuple_s (args : PyObject) : Except PyErr (List Nat) :=
  match args with
  | PyObject.tuple [arg] => convert_s arg
  | PyObject.tuple _ => Except.error PyErr.TypeError
  | _ => Except.error PyErr.SystemError

/-- The largest value of the C type `int` (32 bits). -/
def INT_MAX : Nat := 2147483647

/-- Conversion of an integer to the C type `int`: reduction modulo 2^32 into
the range from -2^31 to 2^31 - 1. -/
def toInt32 (x : Int) : Int :=
  (x + 2147483648) % 4294967296 - 2147483648

/-- The call `printf("%s", cmd)`: writes to standard output the bytes of the C
string `cmd`, that is the bytes before its first NUL. The C library computes
the padding of the conversion, the field width (0 here) minus the length of the
string, in the type `int`, and writes that many spaces before the string when
the result is positive. For a string of at most `INT_MAX` bytes the result is
not positive and the string alone is written; for a longer string the
subtraction wraps around and can come out positive. -/
def printf_s (cmd : List Nat) (out : List Nat) : List Nat :=
  let s := cmd.takeWhile (fun b => b != 0)
  let width := toInt32 (0 - (s.length : Int))
  out ++ List.replicate width.toNat 32 ++ s

/-! ## `embed.c`, lines 5-30 -/

/-- The native function `ahk_callcmd` (`embed.c`, lines 5-13). The third
argument and the second component of the result are standard output before and
after the call. -/
def ahk_callcmd (_self : PyObject) (args : PyObject) (out : List Nat) :
    Except PyErr PyObject × List Nat :=
  match PyArg_ParseTuple_s args with
  | Except.error e => (Except.error e, out)
  | Except.ok cmd => (Except.ok PyObject.None, printf_s cmd out)

/-- Type of a native function pointer (`PyCFunction`), with standard output
threaded through. -/
abbrev PyCFunction := PyObject → PyObject → List Nat → Except PyErr PyObject × List Nat

/-- The calling-convention flag `METH_VARARGS` of `Python.h`. -/
def METH_VARARGS : Nat := 1

/-- One entry of a method table (`PyMethodDef`); `none` is the C `NULL`. -/
structure PyMethodDef where
  ml_name : Option String
  ml_meth : Option PyCFunction
  ml_flags : Nat
  ml_doc : Option String

/-- The method table `AHKMethods` (`embed.c`, lines 15-19): one entry followed by
the all-null sentinel. -/
def AHKMethods : List PyMethodDef :=
  [ PyMethodDef.mk (some "callcmd") (some ahk_callcmd) METH_VARARGS
      (some "Return the number of arguments received by the process."),
    PyMethodDef.mk none none 0 none ]

/-- A module definition (`PyModuleDef`), restricted to the fields the program
sets to something other than `NULL`. -/
structure PyModuleDef where
  m_name : String
  m_doc : Option String
  m_size : Int
  m_methods : List PyMethodDef

/-- The module definition `AHKModule` (`embed.c`, lines 21-24). -/
def AHKModule : PyModuleDef :=
  PyModuleDef.mk "ahk" none (-1) AHKMethods

/-- The entries of a method table that precede the sentinel (the first entry
whose `ml_name` is `NULL`), keyed by name: the loop
`for (; ml->ml_name != NULL; ml++)` of the runtime. -/
def methodEntries : List PyMethodDef → List (String × PyMethodDef)
  | [] => []
  | d :: ds =>
    match d.ml_name with
    | none => []
    | some n => (n, d) :: methodEntries ds

/-- A module object: its name and the functions in its namespace. -/
structure ModuleObject where
  name : String
  dict : List (String × PyMethodDef)

/-- Attribute lookup of a function in a module's namespace. -/
def ModuleObject.getattr (m : ModuleObject) (attr : String) : Option PyMethodDef :=
  m.dict.lookup attr

/-- The runtime routine `PyModule_Create`: a module object named `m_name` whose
namespace holds the functions of `m_methods`. -/
def PyModule_Create (d : PyModuleDef) : Option ModuleObject :=
  some (ModuleObject.mk d.m_name (methodEntries d.m_methods))

/-- The module initialiser `PyInit_ahk` (`embed.c`, lines 26-30). -/
def PyInit_ahk (_ : Unit) : Option ModuleObject :=
  PyModule_Create AHKModule

/-! ## The interpreter runtime, as far as `main` drives it -/

/-- Lifecycle of the process-wide interpreter. -/
inductive InterpState
  | Uninitialized
  | Running
  | Finalized
  deriving DecidableEq, Repr

/-- A module initialiser (`PyObject *(*)(void)`); `none` is the `NULL` return. -/
abbrev InitFunc := Unit → Option ModuleObject

/-- Statements of the script fragment the program uses: `Import m` is the
statement importing module `m`, and `CallAttr m f args` is the expression
statement calling attribute `f` of the name `m` on literal arguments. -/
inductive Stmt
  | Import (name : String)
  | CallAttr (obj : String) (attr : String) (args : List PyObject)

/-- The interpreter operations a host program can perform. -/
inductive Op
  | register
  | init
  | runScript
  | finalize
  deriving DecidableEq, Repr

/-- A record of one runtime call: the operation, its arguments where it has
any, the interpreter state at the time of the call, and the value returned.
The two `void` routines are recorded with 0 when they return; a `Py_Initialize`
that ends the process is recorded with the exit status. -/
structure Event where
  op : Op
  name : Option String
  script : Option (List Stmt)
  before : InterpState
  ret : Int

/-- The circumstances of a run that the program does not control:
* `allocOk`: the runtime can allocate memory to extend the built-in module
  table;
* `initOk`: the runtime can start an interpreter;
* `sysPath`: the modules the import system finds outside the built-in module
  table (frozen modules and modules on the module search path). -/
structure Env where
  allocOk : Bool
  initOk : Bool
  sysPath : List (String × ModuleObject)

/-- The state of the process: its environment, the interpreter lifecycle, the
table of built-in modules added by the host (`PyImport_Inittab` extension), the
namespace of `__main__`, the bytes written to standard output, the exceptions
reported on standard error, and the log of runtime calls. -/
structure World where
  env : Env
  state : InterpState
  inittab : List (String × InitFunc)
  mainDict : List (String × ModuleObject)
  stdout : List Nat
  stderr : List PyErr
  log : List Event

/-- The process state when `main` is entered. -/
def World.initial (env : Env) : World :=
  World.mk env InterpState.Uninitialized [] [] [] [] []

/-- The runtime routine `PyImport_AppendInittab`: adds a module to the table of
built-in modules; returns 0, or -1 (table unchanged) when memory for the
extended table cannot be allocated. -/
def PyImport_AppendInittab (name : String) (initfunc : InitFunc) (w : World) : Int × World :=
  if w.env.allocOk then
    (0, { w with
          inittab := w.inittab ++ [(name, initfunc)]
          log := w.log ++ [Event.mk Op.register (some name) none w.state 0] })
  else
    (-1, { w with log := w.log ++ [Event.mk Op.register (some name) none w.state (-1)] })

/-- The runtime routine `Py_Initialize`: starts the interpreter, with an empty
`__main__` namespace; a no-op when the interpreter is already running. The
routine has no return value: when the interpreter cannot be started it is a
fatal error, and the routine ends the process with exit status 1 instead of
returning. The first component of the result is `none` when the routine
returns, and the exit status when it ends the process. -/
def Py_Initialize (w : World) : Option Int × World :=
  match w.state with
  | InterpState.Running =>
    (none, { w with log := w.log ++ [Event.mk Op.init none none w.state 0] })
  | _ =>
    if w.env.initOk then
      (none, { w with
               state := InterpState.Running
               mainDict := []
               log := w.log ++ [Event.mk Op.init none none w.state 0] })
    else
      (some 1, { w with log := w.log ++ [Event.mk Op.init none none w.state 1] })

/-- Execution of one statement in `__main__`. The result is the exception
raised, if any, and the process state after the statement.

* `Import m`: the built-in module table is searched for `m` first; its
  initialiser is run and the module bound to the name `m`. A module that is not
  in the table is looked for among the other modules of the environment;
  `ModuleNotFoundError` when it is not found there either.
* `CallAttr m f args`: the name `m` is looked up (`NameError`), then the
  attribute `f` in the module (`AttributeError`); a function declared
  `METH_VARARGS` is called with the module as `self` and the argument tuple. -/
def execStmt (w : World) : Stmt → Option PyErr × World
  | Stmt.Import n =>
    match w.inittab.lookup n with
    | some initfunc =>
      match initfunc () with
      | none => (some PyErr.SystemError, w)
      | some m => (none, { w with mainDict := (n, m) :: w.mainDict })
    | none =>
      match w.env.sysPath.lookup n with
      | some m => (none, { w with mainDict := (n, m) :: w.mainDict })
      | none => (some PyErr.ModuleNotFoundError, w)
  | Stmt.CallAttr obj attr args =>
    match w.mainDict.lookup obj with
    | none => (some PyErr.NameError, w)
    | some m =>
      match m.getattr attr with
      | none => (some PyErr.AttributeError, w)
      | some d =>
        match d.ml_meth with
        | none => (some PyErr.SystemError, w)
        | some f =>
          if d.ml_flags = METH_VARARGS then
            match f (PyObject.module m.name) (PyObject.tuple args) w.stdout with
            | (Except.ok _, out) => (none, { w with stdout := out })
            | (Except.error e, out) => (some e, { w with stdout := out })
          else (some PyErr.SystemError, w)

/-- Execution of a statement list, stopping at the first exception. -/
def execScript (w : World) : List Stmt → Option PyErr × World
  | [] => (none, w)
  | s :: rest =>
    match execStmt w s with
    | (some e, w1) => (some e, w1)
    | (none, w1) => execScript w1 rest

/-- The runtime routine `PyRun_SimpleString`: runs the script in `__main__`;
returns 0, or -1 when an exception was raised (the exception is then reported
on standard error). The runtime requires a running interpreter; `main` never
calls the routine otherwise, and for such a call the model executes nothing and
reports -1. -/
def PyRun_SimpleString (script : List Stmt) (w : World) : Int × World :=
  match w.state with
  | InterpState.Running =>
    match execScript w script with
    | (none, w1) =>
      (0, { w1 with log := w1.log ++ [Event.mk Op.runScript none (some script) w.state 0] })
    | (some e, w1) =>
      (-1, { w1 with
             stderr := w1.stderr ++ [e]
             log := w1.log ++ [Event.mk Op.runScript none (some script) w.state (-1)] })
  | _ => (-1, { w with log := w.log ++ [Event.mk Op.runScript none (some script) w.state (-1)] })

/-- The runtime routine `Py_Finalize`: shuts a running interpreter down,
dropping the `__main__` namespace; a no-op otherwise. -/
def Py_Finalize (w : World) : World :=
  let ev := Event.mk Op.finalize none none w.state 0
  match w.state with
  | InterpState.Running =>
    { w with state := InterpState.Finalized, mainDict := [], log := w.log ++ [ev] }
  | _ => { w with log := w.log ++ [ev] }

/-! ## `embed.c`, lines 32-53 -/

/-- Code points of an ASCII string literal. -/
def codePoints (s : String) : List Nat :=
  s.data.map Char.toNat

/-- The script passed to `PyRun_SimpleString` (`embed.c`, lines 44-45): the
two statements `import ahk` and `ahk.callcmd('MsgBox')`. -/
def script : List Stmt :=
  [ Stmt.Import "ahk",
    Stmt.CallAttr "ahk" "callcmd" [PyObject.str (codePoints "MsgBox")] ]

/-- The function `main` (`embed.c`, lines 32-53). The results of
`PyImport_AppendInittab` and `PyRun_SimpleString` are discarded, as in the
source. The result is the exit status of the process and the final process
state: the value 0 returned on line 52, or, when `Py_Initialize` ends the
process, the status it exits with. -/
def main (_argc : Int) (_argv : List (List Nat)) (env : Env) : Int × World :=
  let w0 := World.initial env
  let w1 := (PyImport_AppendInittab "ahk" PyInit_ahk w0).2
  match Py_Initialize w1 with
  | (some status, w2) => (status, w2)
  | (none, w2) =>
    let w3 := (PyRun_SimpleString script w2).2
    let w4 := Py_Finalize w3
    (0, w4)

/-! ## Lemmas on the runtime routines -/

/-- The encoding of a non-zero code point holds no NUL byte. -/
theorem utf8EncodeCodePoint_ne_zero (c : Nat) (hc : c ≠ 0) (b : List Nat)
    (h : utf8EncodeCodePoint c = some b) : ∀ x ∈ b, x ≠ 0 := by
  unfold utf8EncodeCodePoint at h
  split_ifs at h <;> simp at h <;> subst h <;> intro x hx <;> simp at hx <;> omega

/-- Every scalar value (a code point up to U+10FFFF that is not a surrogate)
has an encoding. -/
theorem utf8EncodeCodePoint_isSome (c : Nat) (hr : c < 0x110000)
    (hs : c < 0xD800 ∨ 0xDFFF < c) : ∃ b, utf8EncodeCodePoint c = some b := by
  unfold utf8EncodeCodePoint
  split_ifs <;> first | exact ⟨_, rfl⟩ | omega

/-- A string of non-zero scalar values has an encoding, and the encoding holds
no NUL byte. -/
theorem utf8Encode_of_scalars (s : List Nat)
    (h : ∀ c ∈ s, 0 < c ∧ c < 0x110000 ∧ (c < 0xD800 ∨ 0xDFFF < c)) :
    ∃ bs, utf8Encode s = some bs ∧ ∀ x ∈ bs, x ≠ 0 := by
  induction s with
  | nil => exact ⟨[], rfl, by simp⟩
  | cons c cs ih =>
    obtain ⟨hpos, hr, hs⟩ := h c (List.mem_cons_self c cs)
    obtain ⟨bs, hbs, hnz⟩ := ih (fun d hd => h d (List.mem_cons_of_mem c hd))
    obtain ⟨b, hb⟩ := utf8EncodeCodePoint_isSome c hr hs
    refine ⟨b ++ bs, by simp [utf8Encode, hb, hbs], ?_⟩
    intro x hx
    rcases List.mem_append.mp hx with hx | hx
    · exact utf8EncodeCodePoint_ne_zero c (by omega) b hb x hx
    · exact hnz x hx

/-- A buffer without NUL byte is its own C string. -/
theorem takeWhile_ne_zero (bs : List Nat) (h : ∀ x ∈ bs, x ≠ 0) :
    bs.takeWhile (fun b => b != 0) = bs := by
  induction bs with
  | nil => rfl
  | cons b bs ih =>
    have hb : b ≠ 0 := h b (List.mem_cons_self b bs)
    have ih1 := ih (fun x hx => h x (List.mem_cons_of_mem b hx))
    have hb1 : (b != 0) = true := by simp [hb]
    simp [List.takeWhile, hb1, ih1]

/-- For a string of at most `INT_MAX` bytes the padding computed by `printf` is
not positive. -/
theorem toInt32_neg_toNat (n : Nat) (h : n ≤ INT_MAX) :
    (toInt32 (0 - (n : Int))).toNat = 0 := by
  unfold INT_MAX at h
  unfold toInt32
  omega

/-- A buffer without NUL byte is printed after the padding computed from its
length. -/
theorem printf_s_of_no_nul (bs out : List Nat) (hnz : ∀ x ∈ bs, x ≠ 0) :
    printf_s bs out
      = out ++ List.replicate (toInt32 (0 - (bs.length : Int))).toNat 32 ++ bs := by
  unfold printf_s
  simp only [takeWhile_ne_zero bs hnz]

/-- A buffer without NUL byte and of at most `INT_MAX` bytes is printed as it
is. -/
theorem printf_s_of_short (bs out : List Nat) (hnz : ∀ x ∈ bs, x ≠ 0)
    (hlen : bs.length ≤ INT_MAX) : printf_s bs out = out ++ bs := by
  rw [printf_s_of_no_nul bs out hnz, toInt32_neg_toNat bs.length hlen]
  simp

/-- A string of letters `a` is its own UTF-8 encoding. -/
theorem utf8Encode_replicate_a (n : Nat) :
    utf8Encode (List.replicate n 97) = some (List.replicate n 97) := by
  induction n with
  | zero => rfl
  | succ k ih => simp [List.replicate_succ, utf8Encode, utf8EncodeCodePoint, ih]

/-- The call `callcmd('a' * n)` succeeds and writes the padding computed from
`n` before the `n` letters. -/
theorem callcmd_replicate_a (n : Nat) (self : PyObject) (out : List Nat) :
    ahk_callcmd self (PyObject.tuple [PyObject.str (List.replicate n 97)]) out
      = (Except.ok PyObject.None,
         out ++ List.replicate (toInt32 (0 - (n : Int))).toNat 32 ++ List.replicate n 97) := by
  have hnz : ∀ x ∈ List.replicate n 97, x ≠ 0 := by
    intro x hx
    rw [List.eq_of_mem_replicate hx]
    decide
  have htw := takeWhile_ne_zero (List.replicate n 97) hnz
  have hp := printf_s_of_no_nul (List.replicate n 97) out hnz
  rw [List.length_replicate] at hp
  have hcall : ahk_callcmd self (PyObject.tuple [PyObject.str (List.replicate n 97)]) out
      = (Except.ok PyObject.None, printf_s (List.replicate n 97) out) := by
    simp [ahk_callcmd, PyArg_ParseTuple_s, convert_s, utf8Encode_replicate_a, strlen, htw]
  rw [hcall, hp]

/-- A statement changes neither the log of runtime calls nor the interpreter
state. -/
theorem execStmt_frame (w : World) (s : Stmt) :
    (execStmt w s).2.log = w.log ∧ (execStmt w s).2.state = w.state := by
  cases s with
  | Import n =>
    simp only [execStmt]
    split
    · split <;> exact ⟨rfl, rfl⟩
    · split <;> exact ⟨rfl, rfl⟩
  | CallAttr obj attr args =>
    simp only [execStmt]
    split
    · exact ⟨rfl, rfl⟩
    · split
      · exact ⟨rfl, rfl⟩
      · split
        · exact ⟨rfl, rfl⟩
        · split
          · split <;> exact ⟨rfl, rfl⟩
          · exact ⟨rfl, rfl⟩

/-- A script changes neither the log of runtime calls nor the interpreter
state. -/
theorem execScript_frame (sc : List Stmt) (w : World) :
    (execScript w sc).2.log = w.log ∧ (execScript w sc).2.state = w.state := by
  induction sc generalizing w with
  | nil => exact ⟨rfl, rfl⟩
  | cons s rest ih =>
    have hs := execStmt_frame w s
    simp only [execScript]
    split
    · next e w1 heq =>
      rw [heq] at hs
      exact hs
    · next w1 heq =>
      rw [heq] at hs
      have hr := ih w1
      exact ⟨hr.1.trans hs.1, hr.2.trans hs.2⟩

/-- In a running interpreter, `PyRun_SimpleString` returns 0 or -1, logs one
call and leaves the interpreter running. -/
theorem PyRun_SimpleString_running (sc : List Stmt) (w : World)
    (h : w.state = InterpState.Running) :
    ∃ r : Int, (r = 0 ∨ r = -1)
      ∧ (PyRun_SimpleString sc w).2.log
          = w.log ++ [Event.mk Op.runScript none (some sc) InterpState.Running r]
      ∧ (PyRun_SimpleString sc w).2.state = InterpState.Running := by
  have hf := execScript_frame sc w
  unfold PyRun_SimpleString
  rw [h]
  simp only
  split
  · next w1 heq =>
    rw [heq] at hf
    have h1 : w1.log = w.log := hf.1
    have h2 : w1.state = w.state := hf.2
    exact ⟨0, Or.inl rfl, by simp [h1], by simp [h2, h]⟩
  · next e w1 heq =>
    rw [heq] at hf
    have h1 : w1.log = w.log := hf.1
    have h2 : w1.state = w.state := hf.2
    exact ⟨-1, Or.inr rfl, by simp [h1], by simp [h2, h]⟩

/-- On a running interpreter, `Py_Finalize` logs one call and leaves the
interpreter finalized. -/
theorem Py_Finalize_running (w : World) (h : w.state = InterpState.Running) :
    (Py_Finalize w).log = w.log ++ [Event.mk Op.finalize none none InterpState.Running 0]
    ∧ (Py_Finalize w).state = InterpState.Finalized := by
  unfold Py_Finalize
  rw [h]
  exact ⟨rfl, rfl⟩

/-- The runs of `main` in which the interpreter starts: the exit status is 0,
the log holds the four runtime calls, and the interpreter ends finalized. -/
theorem main_started (argc : Int) (argv : List (List Nat)) (allocOk : Bool)
    (sysPath : List (String × ModuleObject)) :
    ∃ r : Int, (r = 0 ∨ r = -1)
      ∧ (main argc argv (Env.mk allocOk true sysPath)).1 = 0
      ∧ (main argc argv (Env.mk allocOk true sysPath)).2.log
          = [ Event.mk Op.register (some "ahk") none InterpState.Uninitialized
                (if allocOk then 0 else -1),
              Event.mk Op.init none none InterpState.Uninitialized 0,
              Event.mk Op.runScript none (some script) InterpState.Running r,
              Event.mk Op.finalize none none InterpState.Running 0 ]
      ∧ (main argc argv (Env.mk allocOk true sysPath)).2.state = InterpState.Finalized := by
  cases allocOk
  · have hm : main argc argv (Env.mk false true sysPath)
        = (0, Py_Finalize (PyRun_SimpleString script
            (World.mk (Env.mk false true sysPath) InterpState.Running [] [] [] []
              [ Event.mk Op.register (some "ahk") none InterpState.Uninitialized (-1),
                Event.mk Op.init none none InterpState.Uninitialized 0 ])).2) := rfl
    obtain ⟨r, hr, hlog, hst⟩ := PyRun_SimpleString_running script
      (World.mk (Env.mk false true sysPath) InterpState.Running [] [] [] []
        [ Event.mk Op.register (some "ahk") none InterpState.Uninitialized (-1),
          Event.mk Op.init none none InterpState.Uninitialized 0 ]) rfl
    have hfin := Py_Finalize_running _ hst
    refine ⟨r, hr, by rw [hm], ?_, by rw [hm]; exact hfin.2⟩
    rw [hm]
    simp only [hfin.1, hlog]
    rfl
  · exact ⟨0, Or.inl rfl, rfl, rfl, rfl⟩

/-- The argument conversion rejects every object that is not a `str`. -/
theorem convert_s_not_str (arg : PyObject) (h : ∀ s, arg ≠ PyObject.str s) :
    convert_s arg = Except.error PyErr.TypeError := by
  cases arg <;> first | rfl | exact absurd rfl (h _)

/-! ## The native function `callcmd` -/

/-- C2, as stated, fails: a `str` may hold a NUL character or a lone surrogate,
and for such a `cmd` the call does not succeed. With `cmd = "a\0b"` the argument
conversion raises `ValueError`, with `cmd = "\ud800"` it raises
`UnicodeEncodeError`; in both cases `ahk_callcmd` returns the error result and
standard output is left as it was. A `str` may also be longer than `INT_MAX`
bytes: with `cmd` made of 2147483649 letters `a` the call succeeds but
2147483647 spaces are written before `cmd`. -/
theorem C2_callcmd_rejects_nul_and_surrogate :
    ahk_callcmd (PyObject.module "ahk") (PyObject.tuple [PyObject.str [97, 0, 98]]) []
        = (Except.error PyErr.ValueError, [])
    ∧ ahk_callcmd (PyObject.module "ahk") (PyObject.tuple [PyObject.str [0xD800]]) []
        = (Except.error PyErr.UnicodeEncodeError, [])
    ∧ ahk_callcmd (PyObject.module "ahk")
          (PyObject.tuple [PyObject.str (List.replicate 2147483649 97)]) []
        = (Except.ok PyObject.None,
           [] ++ List.replicate 2147483647 32 ++ List.replicate 2147483649 97)
    ∧ ¬ (∀ (cmd : List Nat) (self : PyObject) (out : List Nat),
          ∃ written, ahk_callcmd self (PyObject.tuple [PyObject.str cmd]) out
            = (Except.ok PyObject.None, out ++ written)) := by
  refine ⟨rfl, rfl, ?_, ?_⟩
  · have hw : (toInt32 (0 - ((2147483649 : Nat) : Int))).toNat = 2147483647 := by
      unfold toInt32
      omega
    have hc := callcmd_replicate_a 2147483649 (PyObject.module "ahk") []
    rw [hw] at hc
    exact hc
  intro h
  obtain ⟨written, hw⟩ := h [97, 0, 98] (PyObject.module "ahk") []
  have hv : ahk_callcmd (PyObject.module "ahk") (PyObject.tuple [PyObject.str [97, 0, 98]]) []
      = (Except.error PyErr.ValueError, []) := rfl
  rw [hv] at hw
  cases hw

/-- C2, amended: for every string `cmd` made of non-zero scalar values (no NUL
character, no surrogate code point, every code point at most U+10FFFF) whose
UTF-8 encoding is at most `INT_MAX` bytes long, the call `callcmd(cmd)` succeeds, appends to standard output exactly the UTF-8 bytes of
`cmd` (nothing before, nothing after, no newline) and returns `None`. -/
theorem C2_callcmd_writes_cmd (cmd : List Nat) (self : PyObject) (out : List Nat)
    (h : ∀ c ∈ cmd, 0 < c ∧ c < 0x110000 ∧ (c < 0xD800 ∨ 0xDFFF < c))
    (hlen : ((utf8Encode cmd).getD []).length ≤ INT_MAX) :
    ∃ bs, utf8Encode cmd = some bs
      ∧ ahk_callcmd self (PyObject.tuple [PyObject.str cmd]) out
          = (Except.ok PyObject.None, out ++ bs) := by
  obtain ⟨bs, hbs, hnz⟩ := utf8Encode_of_scalars cmd h
  refine ⟨bs, hbs, ?_⟩
  have hshort : bs.length ≤ INT_MAX := by simpa [hbs] using hlen
  have htw := takeWhile_ne_zero bs hnz
  have hp := printf_s_of_short bs out hnz hshort
  simp [ahk_callcmd, PyArg_ParseTuple_s, convert_s, hbs, strlen, htw, hp]

/-- Witness of `C2_callcmd_writes_cmd` at `cmd = "MsgBox"`, with `Hi` already on
standard output. -/
theorem C2_callcmd_writes_cmd_witness :
    (∀ c ∈ codePoints "MsgBox", 0 < c ∧ c < 0x110000 ∧ (c < 0xD800 ∨ 0xDFFF < c))
    ∧ ((utf8Encode (codePoints "MsgBox")).getD []).length ≤ INT_MAX
    ∧ ∃ bs, utf8Encode (codePoints "MsgBox") = some bs
      ∧ ahk_callcmd (PyObject.module "ahk")
          (PyObject.tuple [PyObject.str (codePoints "MsgBox")]) [72, 105]
          = (Except.ok PyObject.None, [72, 105] ++ bs) :=
  ⟨by decide, by decide,
   C2_callcmd_writes_cmd (codePoints "MsgBox") (PyObject.module "ahk") [72, 105]
     (by decide) (by decide)⟩

/-- C9: for every argument tuple that is not a 1-tuple holding a `str` (no
argument, two or more arguments, or one argument that is not a `str`),
`ahk_callcmd` returns the error result (`TypeError`) and leaves standard output
as it was. -/
theorem C9_callcmd_rejects_other_arguments (self : PyObject) (items : List PyObject)
    (out : List Nat) (h : ∀ s, items ≠ [PyObject.str s]) :
    ahk_callcmd self (PyObject.tuple items) out = (Except.error PyErr.TypeError, out) := by
  match items, h with
  | [], _ => rfl
  | _ :: _ :: _, _ => rfl
  | [arg], h =>
    have harg : ∀ s, arg ≠ PyObject.str s := fun s hs => h s (by rw [hs])
    simp [ahk_callcmd, PyArg_ParseTuple_s, convert_s_not_str arg harg]

/-- Witness of `C9_callcmd_rejects_other_arguments` at the argument tuple
`(b"MsgBox", 1)`. -/
theorem C9_callcmd_rejects_other_arguments_witness :
    (∀ s, [PyObject.bytes [77, 115, 103, 66, 111, 120], PyObject.int 1] ≠ [PyObject.str s])
    ∧ ahk_callcmd (PyObject.module "ahk")
        (PyObject.tuple [PyObject.bytes [77, 115, 103, 66, 111, 120], PyObject.int 1]) [72]
        = (Except.error PyErr.TypeError, [72]) :=
  ⟨(by intro s hs; cases hs),
   C9_callcmd_rejects_other_arguments (PyObject.module "ahk")
     [PyObject.bytes [77, 115, 103, 66, 111, 120], PyObject.int 1] [72]
     (by intro s hs; cases hs)⟩

/-- C7: evaluation of the code where the claim fails. The call
`callcmd('MsgBox')` returns `None` and writes `MsgBox`; its result is not the
integer `argc` for any `argc`, although the documentation string of the method
table entry says the function returns the number of arguments received by the
process. -/
theorem C7_callcmd_returns_none_not_argc :
    ahk_callcmd (PyObject.module "ahk")
        (PyObject.tuple [PyObject.str (codePoints "MsgBox")]) []
      = (Except.ok PyObject.None, [77, 115, 103, 66, 111, 120])
    ∧ (∀ argc : Int,
        (ahk_callcmd (PyObject.module "ahk")
          (PyObject.tuple [PyObject.str (codePoints "MsgBox")]) []).1
        ≠ Except.ok (PyObject.int argc))
    ∧ (AHKMethods.map PyMethodDef.ml_doc).head?
        = some (some "Return the number of arguments received by the process.") := by
  have hv : ahk_callcmd (PyObject.module "ahk")
        (PyObject.tuple [PyObject.str (codePoints "MsgBox")]) []
      = (Except.ok PyObject.None, [77, 115, 103, 66, 111, 120]) := rfl
  refine ⟨hv, ?_, rfl⟩
  intro argc hc
  rw [hv] at hc
  cases hc

/-- C10: the module created by `PyInit_ahk` is named `ahk` and exposes exactly
one native function: looking a name up in it (that is, among the entries of
`AHKMethods` before the sentinel) finds an entry if and only if the name is
`callcmd`, and that entry dispatches to `ahk_callcmd` with the calling
convention `METH_VARARGS`. -/
theorem C10_module_exposes_exactly_callcmd :
    ∃ m, PyInit_ahk () = some m ∧ m.name = "ahk"
      ∧ m.dict = methodEntries AHKMethods
      ∧ (∀ n : String, (m.getattr n).isSome ↔ n = "callcmd")
      ∧ ∃ d, m.getattr "callcmd" = some d
          ∧ d.ml_meth = some ahk_callcmd ∧ d.ml_flags = METH_VARARGS := by
  refine ⟨_, rfl, rfl, rfl, ?_, ?_⟩
  · intro n
    by_cases hn : n = "callcmd"
    · subst hn
      simp [ModuleObject.getattr, methodEntries, AHKMethods, List.lookup]
    · have hb : (n == "callcmd") = false := by simpa using hn
      simp [ModuleObject.getattr, methodEntries, AHKMethods, List.lookup, hb, hn]
  · exact ⟨PyMethodDef.mk (some "callcmd") (some ahk_callcmd) METH_VARARGS
      (some "Return the number of arguments received by the process."),
      by simp [ModuleObject.getattr, methodEntries, AHKMethods, List.lookup], rfl, rfl⟩

/-! ## The function `main` -/

/-- C1: in a run of `main` in which the interpreter starts and the registration
call succeeds (returns 0), whatever other modules the environment offers, the
script imports `ahk` and calls `ahk.callcmd('MsgBox')`, and standard output at
exit is exactly the 6 bytes of `MsgBox`: nothing before, nothing after, no
newline, one copy. -/
theorem C1_main_stdout_is_MsgBox (argc : Int) (argv : List (List Nat)) (allocOk : Bool)
    (sysPath : List (String × ModuleObject))
    (h : (PyImport_AppendInittab "ahk" PyInit_ahk
            (World.initial (Env.mk allocOk true sysPath))).1 = 0) :
    (main argc argv (Env.mk allocOk true sysPath)).2.stdout = [77, 115, 103, 66, 111, 120]
    ∧ (main argc argv (Env.mk allocOk true sysPath)).2.stdout = codePoints "MsgBox"
    ∧ (main argc argv (Env.mk allocOk true sysPath)).2.stdout.length = 6 := by
  cases allocOk
  · simp [PyImport_AppendInittab, World.initial] at h
  · exact ⟨rfl, rfl, rfl⟩

/-- Witness of `C1_main_stdout_is_MsgBox`: the run started as `embed` (one
command-line argument) in an environment where the registration succeeds. -/
theorem C1_main_stdout_is_MsgBox_witness :
    (PyImport_AppendInittab "ahk" PyInit_ahk (World.initial (Env.mk true true []))).1 = 0
    ∧ (main 1 [codePoints "embed"] (Env.mk true true [])).2.stdout
        = [77, 115, 103, 66, 111, 120]
    ∧ (main 1 [codePoints "embed"] (Env.mk true true [])).2.stdout = codePoints "MsgBox"
    ∧ (main 1 [codePoints "embed"] (Env.mk true true [])).2.stdout.length = 6 :=
  ⟨rfl, C1_main_stdout_is_MsgBox 1 [codePoints "embed"] true [] rfl⟩

/-- C4: when every step of the fixed sequence succeeds (each runtime call of
the run returned 0), `main` returns exit code 0. -/
theorem C4_main_exit_zero_on_success (argc : Int) (argv : List (List Nat)) (env : Env)
    (h : ∀ e ∈ (main argc argv env).2.log, e.ret = 0) :
    (main argc argv env).1 = 0 ∧ (main argc argv env).2.stderr = [] := by
  obtain ⟨allocOk, initOk, sysPath⟩ := env
  cases initOk
  · have hlog : (main argc argv (Env.mk allocOk false sysPath)).2.log.map Event.ret
        = [if allocOk then 0 else -1, 1] := by cases allocOk <;> rfl
    have hall : ∀ r ∈ (main argc argv (Env.mk allocOk false sysPath)).2.log.map Event.ret,
        r = 0 := by
      intro r hr
      obtain ⟨e, he, hre⟩ := List.mem_map.mp hr
      rw [← hre]
      exact h e he
    rw [hlog] at hall
    exact absurd (hall 1 (by simp)) (by decide)
  · cases allocOk
    · obtain ⟨r, _, _, hlog, _⟩ := main_started argc argv false sysPath
      have h1 := h (Event.mk Op.register (some "ahk") none InterpState.Uninitialized (-1))
        (by rw [hlog]; exact List.mem_cons_self _ _)
      exact absurd h1 (by decide)
    · exact ⟨rfl, rfl⟩

/-- Witness of `C4_main_exit_zero_on_success`: the run in which the interpreter
starts and the registration succeeds; its four runtime calls all return 0. -/
theorem C4_main_exit_zero_on_success_witness :
    (∀ e ∈ (main 1 [codePoints "embed"] (Env.mk true true [])).2.log, e.ret = 0)
    ∧ (main 1 [codePoints "embed"] (Env.mk true true [])).1 = 0
    ∧ (main 1 [codePoints "embed"] (Env.mk true true [])).2.stderr = [] :=
  have hlog : (main 1 [codePoints "embed"] (Env.mk true true [])).2.log
      = [ Event.mk Op.register (some "ahk") none InterpState.Uninitialized 0,
          Event.mk Op.init none none InterpState.Uninitialized 0,
          Event.mk Op.runScript none (some script) InterpState.Running 0,
          Event.mk Op.finalize none none InterpState.Running 0 ] := rfl
  have hret : ∀ e ∈ (main 1 [codePoints "embed"] (Env.mk true true [])).2.log, e.ret = 0 := by
    rw [hlog]
    simp
  ⟨hret, C4_main_exit_zero_on_success 1 [codePoints "embed"] (Env.mk true true []) hret⟩

/-- C5: in every run of `main` in which the interpreter starts, whether the
script run succeeds (returns 0) or fails (returns -1), the interpreter is
started once and shut down exactly once; the shutdown is the call right after
the script run, it finds the interpreter running and leaves it finalized. Both
outcomes of the script run occur: with no other module in the environment, the
script run returns 0 when the registration succeeded and -1 when it failed. -/
theorem C5_finalize_exactly_once (argc : Int) (argv : List (List Nat)) (allocOk : Bool)
    (sysPath : List (String × ModuleObject)) :
    ((main argc argv (Env.mk allocOk true sysPath)).2.log.map Event.op).count Op.init = 1
    ∧ ((main argc argv (Env.mk allocOk true sysPath)).2.log.map Event.op).count Op.finalize = 1
    ∧ ((main argc argv (Env.mk allocOk true sysPath)).2.log.map Event.op).drop 2
        = [Op.runScript, Op.finalize]
    ∧ ((main argc argv (Env.mk allocOk true sysPath)).2.log.map
          (fun e => (e.op, e.before))).getLast?
        = some (Op.finalize, InterpState.Running)
    ∧ (((main argc argv (Env.mk allocOk true sysPath)).2.log.map Event.ret).get? 2 = some 0
        ∨ ((main argc argv (Env.mk allocOk true sysPath)).2.log.map Event.ret).get? 2
            = some (-1))
    ∧ ((main argc argv (Env.mk allocOk true [])).2.log.map Event.ret).get? 2
        = some (if allocOk then 0 else -1)
    ∧ (main argc argv (Env.mk allocOk true sysPath)).2.state = InterpState.Finalized := by
  obtain ⟨r, hr, _, hlog, hst⟩ := main_started argc argv allocOk sysPath
  refine ⟨?_, ?_, ?_, ?_, ?_, ?_, hst⟩
  · rw [hlog]; rfl
  · rw [hlog]; rfl
  · rw [hlog]; rfl
  · rw [hlog]; rfl
  · rw [hlog]
    rcases hr with hr | hr
    · exact Or.inl (by rw [hr]; rfl)
    · exact Or.inr (by rw [hr]; rfl)
  · cases allocOk <;> rfl

/-- C6: in every run in which the interpreter starts, the runtime calls of
`main` are exactly register, initialize, run-script, finalize, in that order;
the module `ahk` is registered while the interpreter is uninitialized, the
script is run while it is running, and the run ends in the finalized state. -/
theorem C6_main_sequence_is_linear (argc : Int) (argv : List (List Nat)) (allocOk : Bool)
    (sysPath : List (String × ModuleObject)) :
    (main argc argv (Env.mk allocOk true sysPath)).2.log.map (fun e => (e.op, e.before))
        = [ (Op.register, InterpState.Uninitialized),
            (Op.init, InterpState.Uninitialized),
            (Op.runScript, InterpState.Running),
            (Op.finalize, InterpState.Running) ]
    ∧ ((main argc argv (Env.mk allocOk true sysPath)).2.log.filter
          (fun e => e.op = Op.runScript)).map Event.before
        = [InterpState.Running]
    ∧ (main argc argv (Env.mk allocOk true sysPath)).2.log.map Event.name
        = [some "ahk", none, none, none]
    ∧ (main argc argv (Env.mk allocOk true sysPath)).2.state = InterpState.Finalized := by
  obtain ⟨r, _, _, hlog, hst⟩ := main_started argc argv allocOk sysPath
  refine ⟨?_, ?_, ?_, hst⟩
  · rw [hlog]; rfl
  · rw [hlog]; rfl
  · rw [hlog]; rfl

/-- C8: the command line has no influence: for any two command lines, in the
same environment, `main` ends with the same exit code and the same process
state, hence the same standard output and the same log of runtime calls with
the same arguments and results. -/
theorem C8_main_ignores_command_line (argc argc2 : Int) (argv argv2 : List (List Nat))
    (env : Env) :
    main argc argv env = main argc2 argv2 env
    ∧ (main argc argv env).1 = (main argc2 argv2 env).1
    ∧ (main argc argv env).2.stdout = (main argc2 argv2 env).2.stdout
    ∧ (main argc argv env).2.log.map (fun e => (e.op, e.name, e.ret))
        = (main argc2 argv2 env).2.log.map (fun e => (e.op, e.name, e.ret)) :=
  ⟨rfl, rfl, rfl, rfl⟩

end Embed
